import Mathlib

/-!
# Verification of ipp-usb's device lifecycle controller and IPP attribute translator

Shallow embedding of `device.go` (NewDevice construction / Shutdown / Close)
and `ipp.go` (IppService, ippAttrs decoding) from the ipp-usb repository,
together with theorems settling the specification claims.

Modelling conventions:
* Go strings are modelled as `List Char` (`Str`); Go string literals appear
  as `"...".data`.
* Go maps used here (`ippAttrs`, the device-id map) are modelled as
  association lists with insert-or-replace semantics; only lookups are
  performed on them, so iteration order is irrelevant.
* A Go run-time panic (out-of-range index, failed type assertion) is
  modelled by the `GoR.crash` result; normal return is `GoR.ok`.
* Go `error` values are opaque tokens, modelled as `Nat`.
-/

set_option autoImplicit false

namespace IppUsb

/-- Go strings, modelled as lists of characters. -/
abbrev Str := List Char

/-- Opaque Go `error` values. -/
abbrev GoErr := Nat

/-! ## Association-list maps (model of the Go maps used in `ipp.go`)

Both `ippAttrs` (`map[string]goipp.Values`) and the device-id map
(`map[string]string`) are Go maps that are only ever read via key lookup,
so an association list with insert-or-replace assignment is a faithful
model. -/

/-- Lookup in an association list (Go map read `m[k]`). -/
def lookupA {α : Type} : List (Str × α) → Str → Option α
  | [], _ => none
  | (k, v) :: rest, n => if k = n then some v else lookupA rest n

/-- Insert-or-replace in an association list (Go map assignment `m[k] = v`). -/
def insertA {α : Type} : List (Str × α) → Str → α → List (Str × α)
  | [], k, v => [(k, v)]
  | (k0, v0) :: rest, k, v =>
      if k0 = k then (k0, v) :: rest else (k0, v0) :: insertA rest k v

theorem lookupA_insertA {α : Type} (m : List (Str × α)) (k n : Str) (v : α) :
    lookupA (insertA m k v) n = if k = n then some v else lookupA m n := by
  induction m with
  | nil =>
      by_cases h : k = n <;> simp [insertA, lookupA, h]
  | cons p rest ih =>
      obtain ⟨k0, v0⟩ := p
      by_cases h0 : k0 = k
      · subst h0
        by_cases h : k0 = n <;> simp [insertA, lookupA, h]
      · by_cases h : k0 = n
        · subst h
          have : ¬ k = k0 := fun hc => h0 hc.symm
          simp [insertA, lookupA, h0, this]
        · simp [insertA, lookupA, h0, h, ih]

/-! ## IPP values (`goipp.Value`) -/

/-- The dynamic type tags of `goipp` values consulted by this code
(`goipp.Type`). -/
inductive IppTag where
  | string | integer | boolean | range | collection
  deriving DecidableEq, Repr

/-- A `goipp.Value`: the dynamic value union.  A collection holds a list of
attributes, each being a name together with its list of values
(`goipp.Collection = []goipp.Attribute`). -/
inductive IppVal where
  | str (s : Str)
  | int (n : Int)
  | bool (b : Bool)
  | rng (lower upper : Int)
  | col (attrs : List (Str × List IppVal))

/-- `goipp.Value.Type()` restricted to the variants in play. -/
def IppVal.typeOf : IppVal → IppTag
  | .str _ => .string
  | .int _ => .integer
  | .bool _ => .boolean
  | .rng _ _ => .range
  | .col _ => .collection

/-- `ippAttrs`: the attribute store, a map from attribute name to the
attribute's values. -/
abbrev ippAttrs := List (Str × List IppVal)

/-- `newIppDecoder`: build the attribute store from the raw printer-attribute
sequence by scanning it from the end to the beginning and overwriting, so
that the first occurrence of a duplicated name wins. -/
def newIppDecoder (printer : List (Str × List IppVal)) : ippAttrs :=
  printer.reverse.foldl (fun m p => insertA m p.1 p.2) []

theorem newIppDecoder_cons (p : Str × List IppVal) (rest : List (Str × List IppVal)) :
    newIppDecoder (p :: rest) = insertA (newIppDecoder rest) p.1 p.2 := by
  simp [newIppDecoder, List.foldl_append]

theorem newIppDecoder_first_wins (raw : List (Str × List IppVal)) (n : Str) :
    lookupA (newIppDecoder raw) n = (raw.find? (fun p => p.1 == n)).map Prod.snd := by
  induction raw with
  | nil => simp [newIppDecoder, lookupA]
  | cons p rest ih =>
      rw [newIppDecoder_cons, lookupA_insertA]
      by_cases h : p.1 = n
      · simp [List.find?, h]
      · have hb : (p.1 == n) = false := by
          simp [h]
        simp [List.find?, hb, h, ih]

/-! ## IEEE 1284 device-identifier parsing (`ippAttrs.Decode`, devid loop) -/

/-- Go `strings.Split(s, sep)` for a one-character separator: split `s` at
every occurrence of `sep`, keeping empty segments (`Split("", sep) = [""]`). -/
def gsplit (sep : Char) : Str → List Str
  | [] => [[]]
  | c :: rest =>
      if c = sep then [] :: gsplit sep rest
      else
        match gsplit sep rest with
        | [] => [[c]]
        | g :: gs => (c :: g) :: gs

/-- Go `strings.SplitN(s, sep, 2)` for a one-character separator: `none` when
`s` contains no separator (Go returns the one-element slice `[s]`, whose
length-2 check then fails in the caller), `some (k, v)` when `s` splits at
its first separator into `k` and the remainder `v`. -/
def splitFirst (sep : Char) : Str → Option (Str × Str)
  | [] => none
  | c :: rest =>
      if c = sep then some ([], rest)
      else (splitFirst sep rest).map (fun p => (c :: p.1, p.2))

/-- The device-identifier parsing loop of `ippAttrs.Decode`: split the
IEEE 1284 identifier on semicolons, split each segment at its first colon,
discard segments without a colon, and assign into a map so that later
duplicate keys overwrite earlier ones. -/
def parseDevId (s : Str) : List (Str × Str) :=
  (gsplit ';' s).foldl
    (fun m seg =>
      match splitFirst ':' seg with
      | some kv => insertA m kv.1 kv.2
      | none => m) []

theorem foldl_splitFirst_eq_filterMap (segs : List Str) (init : List (Str × Str)) :
    segs.foldl
      (fun m seg =>
        match splitFirst ':' seg with
        | some kv => insertA m kv.1 kv.2
        | none => m) init
    = (segs.filterMap (splitFirst ':')).foldl (fun m kv => insertA m kv.1 kv.2) init := by
  induction segs generalizing init with
  | nil => rfl
  | cons seg rest ih =>
      cases h : splitFirst ':' seg <;>
        simp [List.foldl_cons, List.filterMap_cons, h, ih]

theorem lookupA_foldl_insertA {α : Type} (ps : List (Str × α))
    (init : List (Str × α)) (n : Str) :
    lookupA (ps.foldl (fun m kv => insertA m kv.1 kv.2) init) n
    = match ps.reverse.find? (fun p => p.1 == n) with
      | some p => some p.2
      | none => lookupA init n := by
  induction ps generalizing init with
  | nil => simp
  | cons p rest ih =>
      simp only [List.foldl_cons, List.reverse_cons, ih, List.find?_append]
      cases hr : rest.reverse.find? (fun p => p.1 == n) with
      | some q => simp [Option.orElse]
      | none =>
          by_cases h : p.1 = n
          · simp [Option.orElse, List.find?, h, lookupA_insertA]
          · have hb : (p.1 == n) = false := by simp [h]
            simp [Option.orElse, List.find?, hb, lookupA_insertA, h]

theorem parseDevId_last_wins (s n : Str) :
    lookupA (parseDevId s) n
    = (((gsplit ';' s).filterMap (splitFirst ':')).reverse.find?
        (fun p => p.1 == n)).map Prod.snd := by
  rw [parseDevId, foldl_splitFirst_eq_filterMap, lookupA_foldl_insertA]
  cases ((gsplit ';' s).filterMap (splitFirst ':')).reverse.find? (fun p => p.1 == n) <;>
    simp [lookupA]

/-! ## Run-time panics

`GoR α` is the result of a Go computation of type `α` that may panic at run
time (out-of-range index, failed type assertion). -/

/-- Result of a Go computation that may panic. -/
inductive GoR (α : Type) where
  | ok (a : α)
  | crash
  deriving DecidableEq

instance : Monad GoR where
  pure := GoR.ok
  bind := fun r f => match r with | .ok a => f a | .crash => .crash

/-! ## Typed attribute accessors (`ipp.go`) -/

/-- `ippAttrs.getAttr`: try each name in order; an attribute present whose
first value has the requested type is returned whole (all its values); an
attribute present with a different first-value type is skipped in favour of
the next name; a present attribute with an empty value list panics (`v[0]`
out of range); when no name is admitted the Go `nil` slice is returned,
modelled as `none`. -/
def getAttr (m : ippAttrs) (t : IppTag) : List Str → GoR (Option (List IppVal))
  | [] => .ok none
  | n :: rest =>
      match lookupA m n with
      | some [] => .crash
      | some (v0 :: vs) =>
          if v0.typeOf = t then .ok (some (v0 :: vs)) else getAttr m t rest
      | none => getAttr m t rest

/-- The loop `strs[i] = string(vals[i].(goipp.String))`: cast every value to
a string, panicking on a non-string value. -/
def castStrAll : List IppVal → GoR (List Str)
  | [] => .ok []
  | .str s :: rest =>
      match castStrAll rest with
      | .ok ss => .ok (s :: ss)
      | .crash => .crash
  | _ :: _ => .crash

/-- The cast `collection.(goipp.Collection)` applied to every value of the
attribute, panicking on a non-collection value. -/
def castColAll : List IppVal → GoR (List (List (Str × List IppVal)))
  | [] => .ok []
  | .col a :: rest =>
      match castColAll rest with
      | .ok cs => .ok (a :: cs)
      | .crash => .crash
  | _ :: _ => .crash

/-- `ippAttrs.getStrings`: cast the found values to strings.  The returned
slice is built with `make`, hence it is never the Go `nil` slice, even when
it is empty — so the result is always `some` list. -/
def getStrings (m : ippAttrs) (names : List Str) : GoR (Option (List Str)) :=
  match getAttr m .string names with
  | .crash => .crash
  | .ok vals =>
      match castStrAll (vals.getD []) with
      | .crash => .crash
      | .ok strs => .ok (some strs)

/-- `ippAttrs.strSingle`: the `strs == nil` guard is kept from the source (it
would return `""`), and taking `strs[0]` of an empty slice panics. -/
def strSingle (m : ippAttrs) (names : List Str) : GoR Str :=
  match getStrings m names with
  | .crash => .crash
  | .ok none => .ok []
  | .ok (some []) => .crash
  | .ok (some (s :: _)) => .ok s

/-- Go `strings.Join(strs, ",")` for a one-character separator. -/
def goJoin (sep : Char) : List Str → Str
  | [] => []
  | [s] => s
  | s :: rest => s ++ sep :: goJoin sep rest

/-- `ippAttrs.strJoined`: the found values joined with commas (the Go `nil`
slice joins to `""`). -/
def strJoined (m : ippAttrs) (names : List Str) : GoR Str :=
  match getStrings m names with
  | .crash => .crash
  | .ok strs => .ok (goJoin ',' (strs.getD []))

/-- `ippAttrs.strBrackets`: a non-empty single string is wrapped in round
brackets. -/
def strBrackets (m : ippAttrs) (names : List Str) : GoR Str :=
  match strSingle m names with
  | .crash => .crash
  | .ok s => .ok (if s = [] then [] else '(' :: (s ++ [')']))

/-- `ippAttrs.getBool`: `"T"`/`"F"` when a boolean-typed attribute is found,
`""` when absent. -/
def getBool (m : ippAttrs) (names : List Str) : GoR Str :=
  match getAttr m .boolean names with
  | .crash => .crash
  | .ok none => .ok []
  | .ok (some []) => .crash
  | .ok (some (v0 :: _)) =>
      match v0 with
      | .bool true => .ok "T".data
      | .bool false => .ok "F".data
      | _ => .crash

/-- `ippAttrs.getDuplex`: scan the string values of `"sides-supported"`; a
value with lead `"one"` sets the one-sided flag, otherwise one with lead
`"two"` sets the two-sided flag; `"T"` when two-sided, else `"F"` when
one-sided, else `""`. -/
def getDuplex (m : ippAttrs) : GoR Str :=
  match getAttr m .string ["sides-supported".data] with
  | .crash => .crash
  | .ok vals =>
      match castStrAll (vals.getD []) with
      | .crash => .crash
      | .ok ss =>
          let flags := ss.foldl
            (fun (ot : Bool × Bool) s =>
              if "one".data.isPrefixOf s then (true, ot.2)
              else if "two".data.isPrefixOf s then (ot.1, true)
              else ot) (false, false)
          if flags.2 then .ok "T".data
          else if flags.1 then .ok "F".data
          else .ok []

/-! ## PaperMax (`ippAttrs.getPaperMax`) -/

/-- Per-entry dimension update of `getPaperMax`: locate the sub-attribute by
name (the reverse scan with overwrite keeps the first occurrence), then, when
it has at least one value, raise the running maximum from that first value if
it is an integer or a range (using the range's upper bound). -/
def dimOf (sub : Str) (attrs : List (Str × List IppVal)) (cur : Int) : Int :=
  match attrs.find? (fun a => a.1 == sub) with
  | some (_, v0 :: _) =>
      match v0 with
      | .int n => if n > cur then n else cur
      | .rng _ u => if u > cur then u else cur
      | _ => cur
  | _ => cur

/-- The threshold table of `getPaperMax`, checked in order, first match
wins. -/
def classifyPaper (x y : Int) : Str :=
  if x > 43200 ∧ y > 55900 then ">isoC-A2".data
  else if x ≥ 43200 ∧ y ≥ 55900 then "isoC-A2".data
  else if x ≥ 27900 ∧ y ≥ 43200 then "tabloid-A3".data
  else if x ≥ 21600 ∧ y ≥ 35400 then "legal-A4".data
  else "<legal-A4".data

/-- `ippAttrs.getPaperMax`: roll over the collection-typed
`"media-size-supported"` attribute accumulating the maximum x- and
y-dimensions (both starting at 0), return `""` when the attribute is absent
or either maximum stayed 0, else classify. -/
def getPaperMax (m : ippAttrs) : GoR Str :=
  match getAttr m .collection ["media-size-supported".data] with
  | .crash => .crash
  | .ok none => .ok []
  | .ok (some vals) =>
      match castColAll vals with
      | .crash => .crash
      | .ok cols =>
          let dims := cols.foldl
            (fun (xy : Int × Int) attrs =>
              (dimOf "x-dimension".data attrs xy.1,
               dimOf "y-dimension".data attrs xy.2))
            (0, 0)
          if dims.1 = 0 ∨ dims.2 = 0 then .ok []
          else .ok (classifyPaper dims.1 dims.2)

/-! ## TXT records and `ippAttrs.Decode` -/

/-- An ordered DNS-SD TXT record (`DNSSdTxtRecord`). -/
abbrev TxtRecord := List (Str × Str)

/-- `Txt.Add`: append a key/value pair. -/
def txtAdd (txt : TxtRecord) (k v : Str) : TxtRecord := txt ++ [(k, v)]

/-- `Txt.AddNotEmpty`: append only when the value is non-empty; reports
whether the pair was added. -/
def txtAddNotEmpty (txt : TxtRecord) (k v : Str) : TxtRecord × Bool :=
  if v = [] then (txt, false) else (txtAdd txt k v, true)

/-- `DnsSdInfo`: a service descriptor (service type and TXT record). -/
structure DnsSdInfo where
  typ : Str
  txt : TxtRecord
  deriving DecidableEq

/-- Go `strings.TrimPrefix(s, pre)`. -/
def goTrimPre (pre s : Str) : Str :=
  if pre.isPrefixOf s then s.drop pre.length else s

/-- `ippAttrs.Decode`: resolve the advertised name and build the `_ipp._tcp`
TXT record, key by key in source order.  Crashes when any of the underlying
accessors panics. -/
def ippAttrs.Decode (m : ippAttrs) : GoR (Str × DnsSdInfo) := do
  let dnssd_name ← strSingle m
    ["printer-dns-sd-name".data, "printer-info".data, "printer-make-and-model".data]
  let devidStr ← strSingle m ["printer-device-id".data]
  let devid := parseDevId devidStr
  let txt0 := txtAdd [] "air".data "none".data
  let mop ← strSingle m ["mopria-certified".data]
  let txt1 := (txtAddNotEmpty txt0 "mopria-certified".data mop).1
  let txt2 := txtAdd txt1 "rp".data "ipp/print".data
  let txt3 := txtAdd txt2 "priority".data "50".data
  let kind ← strJoined m ["printer-kind".data]
  let txt4 := (txtAddNotEmpty txt3 "kind".data kind).1
  let pm ← getPaperMax m
  let txt5 := (txtAddNotEmpty txt4 "PaperMax".data pm).1
  let urf ← strJoined m ["urf-supported".data]
  let urfRes := txtAddNotEmpty txt5 "URF".data urf
  let txt6 := if urfRes.2 then urfRes.1
    else (txtAddNotEmpty urfRes.1 "URF".data ((lookupA devid "URF".data).getD [])).1
  let uuid ← strSingle m ["printer-uuid".data]
  let txt7 := (txtAddNotEmpty txt6 "UUID".data (goTrimPre "urn:uuid:".data uuid)).1
  let color ← getBool m ["color-supported".data]
  let txt8 := (txtAddNotEmpty txt7 "Color".data color).1
  let dup ← getDuplex m
  let txt9 := (txtAddNotEmpty txt8 "Duplex".data dup).1
  let loc ← strSingle m ["printer-location".data]
  let txt10 := txtAdd txt9 "note".data loc
  let txt11 := txtAdd txt10 "qtotal".data "1".data
  let txt12 := (txtAddNotEmpty txt11 "usb_MDL".data ((lookupA devid "MDL".data).getD [])).1
  let txt13 := (txtAddNotEmpty txt12 "usb_MFG".data ((lookupA devid "MFG".data).getD [])).1
  let txt14 := (txtAddNotEmpty txt13 "usb_CMD".data ((lookupA devid "CMD".data).getD [])).1
  let ty ← strSingle m ["printer-make-and-model".data]
  let txt15 := (txtAddNotEmpty txt14 "ty".data ty).1
  let product ← strBrackets m ["printer-make-and-model".data]
  let txt16 := (txtAddNotEmpty txt15 "product".data product).1
  let pdl ← strJoined m ["document-format-supported".data]
  let txt17 := (txtAddNotEmpty txt16 "pdl".data pdl).1
  let txt18 := txtAdd txt17 "txtvers".data "1".data
  return (dnssd_name, { typ := "_ipp._tcp".data, txt := txt18 })

/-! ## `IppService` -/

/-- The body of a decoded IPP response message: its printer-attributes group,
which is all `newIppDecoder` consumes. -/
abbrev RawMsg := List (Str × List IppVal)

/-- The outcomes of the externally-performed steps of `IppService`: the HTTP
`Post` exchange, reading the response body, and `msg.DecodeBytes`. -/
structure IppExchange where
  postErr : Option GoErr
  readErr : Option GoErr
  decodeResult : Except GoErr RawMsg

/-- The zero value of `DnsSdInfo` (the named return `info` before any
assignment). -/
def zeroDnsSdInfo : DnsSdInfo := { typ := [], txt := [] }

/-- `IppService`: on transport failure (`Post` or body read) return the error
with zero-valued name and info; on decode failure log, clear the error
(`err = nil` — the source's FIXME path) and return zero-valued name and
info; otherwise build the attribute store and decode it.  The triple is the
Go result `(dnssd_name, info, err)`. -/
def IppService (x : IppExchange) : GoR (Str × DnsSdInfo × Option GoErr) :=
  match x.postErr with
  | some e => .ok ([], zeroDnsSdInfo, some e)
  | none =>
    match x.readErr with
    | some e => .ok ([], zeroDnsSdInfo, some e)
    | none =>
      match x.decodeResult with
      | .error _ => .ok ([], zeroDnsSdInfo, none)
      | .ok raw =>
          match ippAttrs.Decode (newIppDecoder raw) with
          | .crash => .crash
          | .ok (name, info) => .ok (name, info, none)

/-! ## Well-formed attribute values

`wellFormedVals vs` holds when the value list is non-empty and every value
has the same dynamic type as the first value (the homogeneity the protocol
guarantees for one attribute). -/

/-- Non-empty, homogeneously typed value list. -/
def wellFormedVals : List IppVal → Bool
  | [] => false
  | v0 :: vs => vs.all (fun v => v.typeOf == v0.typeOf)

/-- Every attribute of the store has well-formed values. -/
def wellFormedAttrs (m : ippAttrs) : Bool :=
  m.all (fun p => wellFormedVals p.2)

/-! ## Spec-side definitions and supporting lemmas -/

/-- The name-resolution step of `Decode` (its first statement): `strSingle`
over the preferred-name, info-name and make-and-model attributes. -/
def decodeNameResolution (m : ippAttrs) : GoR Str :=
  strSingle m
    ["printer-dns-sd-name".data, "printer-info".data, "printer-make-and-model".data]

/-- The resolved name as the amended claim words it: the first value of the
first listed attribute that is present with a string-typed first value;
attributes present with a non-string first value are skipped. -/
def specResolvedName (m : ippAttrs) : List Str → Option Str
  | [] => none
  | n :: rest =>
      match lookupA m n with
      | some (IppVal.str s :: _) => some s
      | some _ => specResolvedName m rest
      | none => specResolvedName m rest

/-- The x- or y-dimension of one media-size entry, as the claim words it:
the named sub-attribute's first value read as an integer or as a range's
upper bound. -/
def entryDim (sub : Str) (attrs : List (Str × List IppVal)) : Option Int :=
  match attrs.find? (fun a => a.1 == sub) with
  | some (_, IppVal.int n :: _) => some n
  | some (_, IppVal.rng _ u :: _) => some u
  | _ => none

/-- Projection of a collection value. -/
def colProj : IppVal → Option (List (Str × List IppVal))
  | .col a => some a
  | _ => none

/-- The PaperMax value as the claim words it: over all entries of the
collection-typed `"media-size-supported"` attribute, take the maximum
x-dimension and the maximum y-dimension independently (maxima floored at 0);
the field is omitted (empty string) when the attribute is absent or either
maximum is zero; otherwise the first matching threshold row. -/
def specPaperMax (m : ippAttrs) : Str :=
  match lookupA m "media-size-supported".data with
  | some (IppVal.col a0 :: vs) =>
      let entries := a0 :: vs.filterMap colProj
      let xm := (entries.filterMap (entryDim "x-dimension".data)).foldl max 0
      let ym := (entries.filterMap (entryDim "y-dimension".data)).foldl max 0
      if xm = 0 ∨ ym = 0 then [] else classifyPaper xm ym
  | _ => []

theorem lookupA_mem {α : Type} (m : List (Str × α)) (n : Str) (v : α)
    (h : lookupA m n = some v) : (n, v) ∈ m := by
  induction m with
  | nil => simp [lookupA] at h
  | cons p rest ih =>
      obtain ⟨k0, v0⟩ := p
      by_cases hk : k0 = n
      · subst hk
        simp [lookupA] at h
        subst h
        exact List.mem_cons_self _ _
      · simp [lookupA, hk] at h
        exact List.mem_cons_of_mem _ (ih h)

theorem wellFormed_lookup (m : ippAttrs) (hwf : wellFormedAttrs m = true)
    (n : Str) (vs : List IppVal) (h : lookupA m n = some vs) :
    wellFormedVals vs = true := by
  have hm := lookupA_mem m n vs h
  have := List.all_eq_true.mp hwf ⟨n, vs⟩ hm
  simpa using this

theorem wellFormedVals_homog (v0 : IppVal) (vs : List IppVal)
    (h : wellFormedVals (v0 :: vs) = true) :
    ∀ v ∈ vs, v.typeOf = v0.typeOf := by
  intro v hv
  have := List.all_eq_true.mp h v hv
  simpa using this

theorem castStrAll_ok_of_string (l : List IppVal)
    (h : ∀ v ∈ l, v.typeOf = IppTag.string) :
    ∃ ss, castStrAll l = .ok ss := by
  induction l with
  | nil => exact ⟨[], rfl⟩
  | cons v rest ih =>
      obtain ⟨ss, hss⟩ := ih (fun w hw => h w (List.mem_cons_of_mem _ hw))
      have hv := h v (List.mem_cons_self _ _)
      cases v with
      | str s => exact ⟨s :: ss, by simp [castStrAll, hss]⟩
      | int n => simp [IppVal.typeOf] at hv
      | bool b => simp [IppVal.typeOf] at hv
      | rng a b => simp [IppVal.typeOf] at hv
      | col a => simp [IppVal.typeOf] at hv

theorem castColAll_ok_of_col (l : List IppVal)
    (h : ∀ v ∈ l, v.typeOf = IppTag.collection) :
    castColAll l = .ok (l.filterMap colProj) := by
  induction l with
  | nil => rfl
  | cons v rest ih =>
      have hrest := ih (fun w hw => h w (List.mem_cons_of_mem _ hw))
      have hv := h v (List.mem_cons_self _ _)
      cases v with
      | col a => simp [castColAll, hrest, List.filterMap_cons, colProj]
      | str s => simp [IppVal.typeOf] at hv
      | int n => simp [IppVal.typeOf] at hv
      | bool b => simp [IppVal.typeOf] at hv
      | rng a b => simp [IppVal.typeOf] at hv

/-- The Go `nil`-slice guard in `strSingle` is dead code: `getStrings` builds
its result with `make`, which yields a non-nil slice even when empty. -/
theorem getStrings_never_nilSlice (m : ippAttrs) (names : List Str) :
    getStrings m names ≠ GoR.ok none := by
  unfold getStrings
  cases getAttr m .string names with
  | crash => simp
  | ok vals => cases h : castStrAll (vals.getD []) <;> simp [h]

theorem strSingle_eq_spec (m : ippAttrs) (hwf : wellFormedAttrs m = true) :
    ∀ names, strSingle m names =
      match specResolvedName m names with
      | some s => GoR.ok s
      | none => GoR.crash := by
  intro names
  induction names with
  | nil => rfl
  | cons n rest ih =>
      cases hl : lookupA m n with
      | none =>
          have hga : getAttr m .string (n :: rest) = getAttr m .string rest := by
            simp [getAttr, hl]
          have hgs : getStrings m (n :: rest) = getStrings m rest := by
            unfold getStrings; rw [hga]
          have hss : strSingle m (n :: rest) = strSingle m rest := by
            unfold strSingle; rw [hgs]
          rw [hss, ih]
          simp [specResolvedName, hl]
      | some vs =>
          cases vs with
          | nil =>
              have := wellFormed_lookup m hwf n [] hl
              simp [wellFormedVals] at this
          | cons v0 vt =>
              have hhom := wellFormedVals_homog v0 vt (wellFormed_lookup m hwf n _ hl)
              cases v0 with
              | str s =>
                  have hga : getAttr m .string (n :: rest)
                      = .ok (some (IppVal.str s :: vt)) := by
                    simp [getAttr, hl, IppVal.typeOf]
                  obtain ⟨ss, hss⟩ := castStrAll_ok_of_string vt hhom
                  have hgs : getStrings m (n :: rest) = .ok (some (s :: ss)) := by
                    unfold getStrings; rw [hga]; simp [castStrAll, hss]
                  have : strSingle m (n :: rest) = .ok s := by
                    unfold strSingle; rw [hgs]
                  rw [this]
                  simp [specResolvedName, hl]
              | int k =>
                  have hga : getAttr m .string (n :: rest) = getAttr m .string rest := by
                    simp [getAttr, hl, IppVal.typeOf]
                  have hgs : getStrings m (n :: rest) = getStrings m rest := by
                    unfold getStrings; rw [hga]
                  have hss : strSingle m (n :: rest) = strSingle m rest := by
                    unfold strSingle; rw [hgs]
                  rw [hss, ih]
                  simp [specResolvedName, hl]
              | bool b =>
                  have hga : getAttr m .string (n :: rest) = getAttr m .string rest := by
                    simp [getAttr, hl, IppVal.typeOf]
                  have hgs : getStrings m (n :: rest) = getStrings m rest := by
                    unfold getStrings; rw [hga]
                  have hss : strSingle m (n :: rest) = strSingle m rest := by
                    unfold strSingle; rw [hgs]
                  rw [hss, ih]
                  simp [specResolvedName, hl]
              | rng a b =>
                  have hga : getAttr m .string (n :: rest) = getAttr m .string rest := by
                    simp [getAttr, hl, IppVal.typeOf]
                  have hgs : getStrings m (n :: rest) = getStrings m rest := by
                    unfold getStrings; rw [hga]
                  have hss : strSingle m (n :: rest) = strSingle m rest := by
                    unfold strSingle; rw [hgs]
                  rw [hss, ih]
                  simp [specResolvedName, hl]
              | col a =>
                  have hga : getAttr m .string (n :: rest) = getAttr m .string rest := by
                    simp [getAttr, hl, IppVal.typeOf]
                  have hgs : getStrings m (n :: rest) = getStrings m rest := by
                    unfold getStrings; rw [hga]
                  have hss : strSingle m (n :: rest) = strSingle m rest := by
                    unfold strSingle; rw [hgs]
                  rw [hss, ih]
                  simp [specResolvedName, hl]

theorem dimOf_eq_max (sub : Str) (attrs : List (Str × List IppVal)) (cur : Int) :
    dimOf sub attrs cur
      = match entryDim sub attrs with
        | some v => max cur v
        | none => cur := by
  unfold dimOf entryDim
  cases h : attrs.find? (fun a => a.1 == sub) with
  | none => rfl
  | some p =>
      obtain ⟨k, vals⟩ := p
      cases vals with
      | nil => rfl
      | cons v0 vt =>
          cases v0 with
          | int n =>
              by_cases hc : n > cur
              · simp [hc, max_eq_right (le_of_lt hc)]
              · simp [hc, max_eq_left (not_lt.mp hc)]
          | rng a u =>
              by_cases hc : u > cur
              · simp [hc, max_eq_right (le_of_lt hc)]
              · simp [hc, max_eq_left (not_lt.mp hc)]
          | str s => rfl
          | bool b => rfl
          | col a => rfl

theorem foldl_dimOf_eq (sub : Str) (entries : List (List (Str × List IppVal))) :
    ∀ x0 : Int, entries.foldl (fun x attrs => dimOf sub attrs x) x0
      = (entries.filterMap (entryDim sub)).foldl max x0 := by
  induction entries with
  | nil => intro x0; rfl
  | cons a rest ih =>
      intro x0
      rw [List.foldl_cons, ih, dimOf_eq_max]
      cases h : entryDim sub a <;> simp [List.filterMap_cons, h]

theorem foldl_dims_pair (xd yd : Str) (entries : List (List (Str × List IppVal)))
    (x0 y0 : Int) :
    entries.foldl (fun (xy : Int × Int) attrs =>
        (dimOf xd attrs xy.1, dimOf yd attrs xy.2)) (x0, y0)
    = (entries.foldl (fun x attrs => dimOf xd attrs x) x0,
       entries.foldl (fun y attrs => dimOf yd attrs y) y0) := by
  induction entries generalizing x0 y0 with
  | nil => rfl
  | cons a rest ih => simp [List.foldl_cons, ih]

/-! ## Device lifecycle (`device.go`) -/

/-- The release actions of `NewDevice`'s unwind block (`ERROR:`). -/
inductive NdAct where
  | closeProxy | closeTransport | closeListener
  deriving DecidableEq

/-- What `NewDevice` consumes of `IppPrinterInfo`: the derived DNS-SD name
and the index of the IPP service descriptor.  Modelled from the spec: the
type is defined outside the staged files; §3 requires the scan amendment "to
target the same descriptor index recorded at print-descriptor creation
time". -/
structure IppPrinterInfo where
  dnssdName : Str
  ippSvcIndex : Nat
  deriving DecidableEq

/-- One DNS-SD service descriptor (`DNSSdSvcInfo`). -/
structure DNSSdSvcInfo where
  typ : Str
  port : Nat
  txt : TxtRecord
  deriving DecidableEq

/-- The persisted name fields of `DevState` that `NewDevice` may write. -/
structure DevStatePersist where
  dnssdName : Str
  dnssdOverride : Str
  deriving DecidableEq

/-- Outcomes of the external steps `NewDevice` sequences.  The IPP query's
own error is only logged and affects nothing downstream, so it is not a
field; `ippinfo = none` covers the failed-query case.  `NewUsbTransport` is
taken to leave the transport reference nil on failure (modelled from the
spec: step 1's failure has "nothing yet to unwind"). -/
structure NewDeviceEnv where
  transportErr : Option GoErr
  infoDnssdName : Str
  state0 : DevStatePersist
  httpPort : Nat
  listenErr : Option GoErr
  ippinfo : Option IppPrinterInfo
  ippServices : List DNSSdSvcInfo
  esclErr : Option GoErr
  esclServices : List DNSSdSvcInfo
  dnssdEnable : Bool
  publishErr : Option GoErr
  deriving DecidableEq

/-- What one `NewDevice` run yields: whether a `Device` was returned, the
returned error, the release calls of the unwind block in invocation order,
the persisted name fields afterwards, whether `Save` was called, and the
service list as assembled for the publisher. -/
structure NewDeviceResult where
  deviceReturned : Bool
  retErr : Option GoErr
  unwind : List NdAct
  stateAfter : DevStatePersist
  saveCalled : Bool
  services : List DNSSdSvcInfo
  deriving DecidableEq

/-- The DNS-SD name `NewDevice` resolves: the IPP-derived name when the IPP
query produced an `ippinfo`, else the identity's fallback name. -/
def resolvedDnssdName (env : NewDeviceEnv) : Str :=
  match env.ippinfo with
  | some i => i.dnssdName
  | none => env.infoDnssdName

/-- `ippSvc.Txt.Add("Scan", flag)` on the descriptor at `idx`. -/
def amendScan : List DNSSdSvcInfo → Nat → Str → List DNSSdSvcInfo
  | [], _, _ => []
  | s :: rest, 0, flag => { s with txt := txtAdd s.txt "Scan".data flag } :: rest
  | s :: rest, n + 1, flag => s :: amendScan rest n flag

/-- The unconditional plain-web descriptor. -/
def webSvc (port : Nat) : DNSSdSvcInfo :=
  { typ := "_http._tcp".data, port := port, txt := [] }

/-- The service list after the scan-presence amendment: when an `ippinfo`
exists, the descriptor at its recorded index gets `Scan=T` when the eSCL
query succeeded and `Scan=F` when it failed; `none` models the panic of
indexing `dnssdServices[ippinfo.IppSvcIndex]` out of range. -/
def afterScanServices (env : NewDeviceEnv) : Option (List DNSSdSvcInfo) :=
  let svcs1 := env.ippServices ++ env.esclServices
  match env.ippinfo with
  | some i =>
      if i.ippSvcIndex < svcs1.length
      then some (amendScan svcs1 i.ippSvcIndex
             (if env.esclErr = none then "T".data else "F".data))
      else none
  | none => some svcs1

/-- `NewDevice`: the construction sequence of `device.go` driven by the
outcomes of its external steps.  The two early fatal failures jump to the
unwind block with only the already-acquired references non-nil: nothing
after transport acquisition fails, exactly the transport after listener
acquisition fails; a publish failure reaches the block with the proxy, the
transport and the listener all live, closed in that source order.  The
persisted name fields are updated and saved before the eSCL query exactly
when the resolved name differs from the stored one. -/
def newDevice (env : NewDeviceEnv) : Option NewDeviceResult :=
  match env.transportErr with
  | some e => some
      { deviceReturned := false, retErr := some e, unwind := [],
        stateAfter := env.state0, saveCalled := false, services := [] }
  | none =>
    match env.listenErr with
    | some e => some
        { deviceReturned := false, retErr := some e, unwind := [NdAct.closeTransport],
          stateAfter := env.state0, saveCalled := false, services := [] }
    | none =>
        let dnssdName := resolvedDnssdName env
        let stSaved :=
          if dnssdName ≠ env.state0.dnssdName
          then (({ dnssdName := dnssdName, dnssdOverride := dnssdName } : DevStatePersist),
                true)
          else (env.state0, false)
        match afterScanServices env with
        | none => none
        | some svcs2 =>
            let svcs3 := svcs2 ++ [webSvc env.httpPort]
            if env.dnssdEnable then
              match env.publishErr with
              | some e => some
                  { deviceReturned := false, retErr := some e,
                    unwind := [NdAct.closeProxy, NdAct.closeTransport, NdAct.closeListener],
                    stateAfter := stSaved.1, saveCalled := stSaved.2, services := svcs3 }
              | none => some
                  { deviceReturned := true, retErr := none, unwind := [],
                    stateAfter := stSaved.1, saveCalled := stSaved.2, services := svcs3 }
            else some
                { deviceReturned := true, retErr := none, unwind := [],
                  stateAfter := stSaved.1, saveCalled := stSaved.2, services := svcs3 }

/-- The nullable resource references a `Device` holds. -/
structure DeviceRefs where
  dnssdPublisher : Bool
  httpProxy : Bool
  usbTransport : Bool
  deriving DecidableEq

/-- The operations `Shutdown` and `Close` can invoke on the resources. -/
inductive LifeAct where
  | unpublish | closeProxy | shutdownTransport | closeTransport
  deriving DecidableEq

/-- `Device.Shutdown`: unpublish and clear the publisher, close and clear
the proxy, then gracefully shut the transport down — returning without
clearing the transport reference. -/
def deviceShutdown (d : DeviceRefs) : DeviceRefs × List LifeAct :=
  let s1 :=
    if d.dnssdPublisher
    then ({ d with dnssdPublisher := false }, [LifeAct.unpublish])
    else (d, [])
  let s2 :=
    if s1.1.httpProxy
    then ({ s1.1 with httpProxy := false }, s1.2 ++ [LifeAct.closeProxy])
    else s1
  if s2.1.usbTransport
  then (s2.1, s2.2 ++ [LifeAct.shutdownTransport])
  else s2

/-- `Device.Close`: unpublish, close the proxy, close the transport,
clearing each reference immediately after its release. -/
def deviceClose (d : DeviceRefs) : DeviceRefs × List LifeAct :=
  let s1 :=
    if d.dnssdPublisher
    then ({ d with dnssdPublisher := false }, [LifeAct.unpublish])
    else (d, [])
  let s2 :=
    if s1.1.httpProxy
    then ({ s1.1 with httpProxy := false }, s1.2 ++ [LifeAct.closeProxy])
    else s1
  if s2.1.usbTransport
  then ({ s2.1 with usbTransport := false }, s2.2 ++ [LifeAct.closeTransport])
  else s2

theorem amendScan_length (flag : Str) :
    ∀ (svcs : List DNSSdSvcInfo) (idx : Nat),
      (amendScan svcs idx flag).length = svcs.length := by
  intro svcs
  induction svcs with
  | nil => intro idx; rfl
  | cons s rest ih =>
      intro idx
      cases idx with
      | zero => rfl
      | succ n => simp [amendScan, ih]

theorem amendScan_get?_eq (flag : Str) :
    ∀ (svcs : List DNSSdSvcInfo) (idx : Nat),
      (amendScan svcs idx flag).get? idx
        = (svcs.get? idx).map (fun s => { s with txt := txtAdd s.txt "Scan".data flag }) := by
  intro svcs
  induction svcs with
  | nil => intro idx; cases idx <;> rfl
  | cons s rest ih =>
      intro idx
      cases idx with
      | zero => rfl
      | succ n => simpa [amendScan] using ih n

theorem amendScan_get?_ne (flag : Str) :
    ∀ (svcs : List DNSSdSvcInfo) (idx j : Nat), j ≠ idx →
      (amendScan svcs idx flag).get? j = svcs.get? j := by
  intro svcs
  induction svcs with
  | nil => intro idx j _; cases j <;> rfl
  | cons s rest ih =>
      intro idx j hne
      cases idx with
      | zero =>
          cases j with
          | zero => exact absurd rfl hne
          | succ k => rfl
      | succ n =>
          cases j with
          | zero => rfl
          | succ k =>
              have : k ≠ n := fun h => hne (by rw [h])
              simpa [amendScan] using ih n k this

end IppUsb

namespace IppUsbClaims

open IppUsb

/-- **C4.** When the same attribute name occurs more than once in the raw
sequence, the store built by `newIppDecoder` maps that name to the values of
the first occurrence in protocol order: in general, lookup in the store
equals the first matching entry of the raw sequence; in particular for the
raw sequence `[(A,"1"),(A,"2")]`, lookup of `A` yields `"1"`. -/
theorem newIppDecoder_maps_to_first_occurrence :
    (∀ (raw : List (Str × List IppVal)) (n : Str),
      lookupA (newIppDecoder raw) n = (raw.find? (fun p => p.1 == n)).map Prod.snd) ∧
    lookupA (newIppDecoder
        [("A".data, [IppVal.str "1".data]), ("A".data, [IppVal.str "2".data])])
      "A".data = some [IppVal.str "1".data] := by
  refine ⟨newIppDecoder_first_wins, ?_⟩
  rfl

/-- **C5.** Parsing a device-identifier string splits it into
semicolon-separated segments, splits each segment at its first colon into key
and value, discards segments containing no colon, and resolves duplicate keys
last-wins: in general, lookup in the parsed map equals the value of the last
colon-containing segment whose key matches; in particular
`"MFG:Acme;MDL:Foo;GARBAGE;CMD:PCL"` yields MFG="Acme", MDL="Foo", CMD="PCL"
with no entry for GARBAGE, and `"MFG:A;MFG:B"` yields MFG="B". -/
theorem parseDevId_splits_and_last_wins :
    (∀ (s n : Str),
      lookupA (parseDevId s) n
        = (((gsplit ';' s).filterMap (splitFirst ':')).reverse.find?
            (fun p => p.1 == n)).map Prod.snd) ∧
    lookupA (parseDevId "MFG:Acme;MDL:Foo;GARBAGE;CMD:PCL".data) "MFG".data
      = some "Acme".data ∧
    lookupA (parseDevId "MFG:Acme;MDL:Foo;GARBAGE;CMD:PCL".data) "MDL".data
      = some "Foo".data ∧
    lookupA (parseDevId "MFG:Acme;MDL:Foo;GARBAGE;CMD:PCL".data) "CMD".data
      = some "PCL".data ∧
    lookupA (parseDevId "MFG:Acme;MDL:Foo;GARBAGE;CMD:PCL".data) "GARBAGE".data
      = none ∧
    lookupA (parseDevId "MFG:A;MFG:B".data) "MFG".data = some "B".data := by
  exact ⟨parseDevId_last_wins, by decide, by decide, by decide, by decide, by decide⟩

/-- **C3.** For every attribute store with well-formed values, the PaperMax
value equals the claim's description: the independent maxima of the x- and
y-dimensions over all entries of the collection-typed
`"media-size-supported"` attribute (integer value or range upper bound),
the empty string (field omitted) when the attribute is absent or either
maximum is zero, and otherwise the first matching threshold row of
`classifyPaper`. -/
theorem getPaperMax_matches_claim (m : ippAttrs) (hwf : wellFormedAttrs m = true) :
    getPaperMax m = GoR.ok (specPaperMax m) := by
  unfold getPaperMax specPaperMax
  cases hl : lookupA m "media-size-supported".data with
  | none => simp [getAttr, hl]
  | some vs =>
      cases vs with
      | nil =>
          have := wellFormed_lookup m hwf _ [] hl
          simp [wellFormedVals] at this
      | cons v0 vt =>
          have hhom := wellFormedVals_homog v0 vt (wellFormed_lookup m hwf _ _ hl)
          cases v0 with
          | col a0 =>
              have hga : getAttr m .collection ["media-size-supported".data]
                  = .ok (some (IppVal.col a0 :: vt)) := by
                simp [getAttr, hl, IppVal.typeOf]
              have hcast : castColAll (IppVal.col a0 :: vt)
                  = .ok (a0 :: vt.filterMap colProj) := by
                have hall : ∀ v ∈ (IppVal.col a0 :: vt), v.typeOf = IppTag.collection := by
                  intro v hv
                  rcases List.mem_cons.mp hv with h | h
                  · subst h; rfl
                  · simpa [IppVal.typeOf] using hhom v h
                simpa [List.filterMap_cons, colProj] using castColAll_ok_of_col _ hall
              rw [hga]
              simp only [hcast, foldl_dims_pair, foldl_dimOf_eq]
              split <;> rfl
          | str s => simp [getAttr, hl, IppVal.typeOf]
          | int k => simp [getAttr, hl, IppVal.typeOf]
          | bool b => simp [getAttr, hl, IppVal.typeOf]
          | rng a b => simp [getAttr, hl, IppVal.typeOf]

/-- A store whose only attribute is one media-size entry of exactly
21600 × 35400 hundredths of millimeters. -/
def paperStoreEx : ippAttrs :=
  [("media-size-supported".data,
    [IppVal.col [("x-dimension".data, [IppVal.int 21600]),
                 ("y-dimension".data, [IppVal.int 35400])]])]

/-- Witness for C3: on a concrete well-formed store the theorem applies, and
the classified value there is `"legal-A4"`. -/
theorem getPaperMax_matches_claim_witness :
    wellFormedAttrs paperStoreEx = true ∧
    getPaperMax paperStoreEx = GoR.ok (specPaperMax paperStoreEx) ∧
    specPaperMax paperStoreEx = "legal-A4".data :=
  ⟨by decide, getPaperMax_matches_claim paperStoreEx (by decide), by decide⟩

/-- **C6 (counterexample).** The claim says that when all three name
attributes are absent the resolved name is the empty string; on the empty
store (all three absent) the name resolution of `Decode` instead panics:
`getStrings` builds a non-nil empty slice, so the nil guard never fires and
`strs[0]` is out of range. -/
theorem decodeName_all_absent_is_not_empty_string :
    decodeNameResolution [] = GoR.crash ∧
    (GoR.crash : GoR Str) ≠ GoR.ok [] := by
  exact ⟨rfl, by decide⟩

/-- **C6 (amended).** For a store with well-formed values, the resolved
advertised name is the first value of the first attribute present — with a
string-typed first value — among, in order, `"printer-dns-sd-name"`,
`"printer-info"` and `"printer-make-and-model"` (attributes present with a
non-string first value are skipped); when no attribute qualifies, the name
lookup panics instead of yielding the empty string. -/
theorem decodeName_first_string_typed_wins (m : ippAttrs)
    (hwf : wellFormedAttrs m = true) :
    decodeNameResolution m =
      match specResolvedName m
          ["printer-dns-sd-name".data, "printer-info".data,
           "printer-make-and-model".data] with
      | some s => GoR.ok s
      | none => GoR.crash :=
  strSingle_eq_spec m hwf _

/-- Witness for the amended C6: with only `"printer-make-and-model"` present
the resolved name is its value. -/
theorem decodeName_first_string_typed_wins_witness :
    wellFormedAttrs [("printer-make-and-model".data, [IppVal.str "Acme X1".data])] = true ∧
    decodeNameResolution [("printer-make-and-model".data, [IppVal.str "Acme X1".data])]
      = GoR.ok "Acme X1".data := by
  refine ⟨by decide, ?_⟩
  rw [decodeName_first_string_typed_wins
    [("printer-make-and-model".data, [IppVal.str "Acme X1".data])] (by decide)]
  rfl

/-- **C9.** When the HTTP exchange succeeds but the protocol decode fails,
`IppService` returns a nil error together with zero-valued results (empty
name, empty descriptor — "no attributes") instead of propagating the decode
error. -/
theorem ippService_absorbs_decode_error (x : IppExchange) (e : GoErr)
    (hp : x.postErr = none) (hr : x.readErr = none)
    (hd : x.decodeResult = Except.error e) :
    IppService x = GoR.ok ([], zeroDnsSdInfo, none) := by
  unfold IppService
  rw [hp, hr, hd]

/-- Witness for C9 at a concrete exchange whose decode fails with error 7. -/
theorem ippService_absorbs_decode_error_witness :
    IppService ⟨none, none, Except.error 7⟩ = GoR.ok ([], zeroDnsSdInfo, none) :=
  ippService_absorbs_decode_error ⟨none, none, Except.error 7⟩ 7 rfl rfl rfl

/-- **C10.** The claim says `Decode` never panics on a store whose
attributes all have homogeneously typed values; but the empty store — for
which the homogeneity precondition holds vacuously — makes `Decode` panic:
its very first single-string lookup finds no attribute, `getStrings` returns
an empty but non-nil slice (the result of `make`), the dead `strs == nil`
guard does not fire, and `strs[0]` is out of range.  This contradicts the
explicit intent of that guard, which is to return `""` for absent
attributes. -/
theorem ippDecode_crashes_on_empty_store :
    ippAttrs.Decode ([] : ippAttrs) = GoR.crash ∧
    wellFormedAttrs ([] : ippAttrs) = true :=
  ⟨rfl, rfl⟩

/-- Fields of a completed-or-publish-failed `NewDevice` run: once transport
and listener succeeded and the scan amendment did not panic, the returned
record carries the amended services plus the web descriptor, the persisted
name fields updated exactly when the resolved name differs, and the save
flag of that comparison. -/
theorem newDevice_ok_fields (env : NewDeviceEnv) (r : NewDeviceResult)
    (ht : env.transportErr = none) (hl : env.listenErr = none)
    (svcs2 : List DNSSdSvcInfo) (hsc : afterScanServices env = some svcs2)
    (hr : newDevice env = some r) :
    r.services = svcs2 ++ [webSvc env.httpPort] ∧
    r.stateAfter = (if resolvedDnssdName env ≠ env.state0.dnssdName
       then ({ dnssdName := resolvedDnssdName env,
               dnssdOverride := resolvedDnssdName env } : DevStatePersist)
       else env.state0) ∧
    r.saveCalled = (if resolvedDnssdName env ≠ env.state0.dnssdName then true else false) := by
  simp only [newDevice, ht, hl, hsc] at hr
  split at hr
  · split at hr <;>
      · simp only [Option.some.injEq] at hr
        subst hr
        refine ⟨rfl, ?_, ?_⟩ <;>
          · by_cases hn : resolvedDnssdName env ≠ env.state0.dnssdName <;> simp [hn]
  · simp only [Option.some.injEq] at hr
    subst hr
    refine ⟨rfl, ?_, ?_⟩ <;>
      · by_cases hn : resolvedDnssdName env ≠ env.state0.dnssdName <;> simp [hn]

/-- **C1 (counterexample).** The claim requires unwinding in strict reverse
order of acquisition (transport, then listener, then proxy were acquired, so
proxy, listener, transport should be released); on a publish failure the
unwind block instead closes the proxy, then the transport, then the
listener. -/
theorem newDevice_unwind_not_strict_reverse :
    (newDevice
      { transportErr := none, infoDnssdName := "X".data,
        state0 := { dnssdName := "X".data, dnssdOverride := "X".data },
        httpPort := 60000, listenErr := none, ippinfo := none,
        ippServices := [], esclErr := none, esclServices := [],
        dnssdEnable := true, publishErr := some 5 }).map (fun r => r.unwind)
      = some [NdAct.closeProxy, NdAct.closeTransport, NdAct.closeListener] ∧
    [NdAct.closeProxy, NdAct.closeTransport, NdAct.closeListener]
      ≠ [NdAct.closeProxy, NdAct.closeListener, NdAct.closeTransport] := by
  decide

/-- **C1 (amended).** Every failing construction returns no `Device`
together with the failing step's error unchanged and releases exactly the
resources acquired by the successful prior steps — closing, after a publish
failure, the proxy first and then the transport before the listener (not in
strict reverse acquisition order); in particular, when listener acquisition
fails after the transport was acquired, the unwind is exactly one transport
close. -/
theorem newDevice_fatal_unwind (env : NewDeviceEnv) :
    (∀ e, env.transportErr = some e →
      newDevice env = some
        { deviceReturned := false, retErr := some e, unwind := [],
          stateAfter := env.state0, saveCalled := false, services := [] }) ∧
    (∀ e, env.transportErr = none → env.listenErr = some e →
      newDevice env = some
        { deviceReturned := false, retErr := some e, unwind := [NdAct.closeTransport],
          stateAfter := env.state0, saveCalled := false, services := [] }) ∧
    (∀ e r, env.transportErr = none → env.listenErr = none →
      env.dnssdEnable = true → env.publishErr = some e →
      newDevice env = some r →
      r.deviceReturned = false ∧ r.retErr = some e ∧
      r.unwind = [NdAct.closeProxy, NdAct.closeTransport, NdAct.closeListener]) := by
  refine ⟨?_, ?_, ?_⟩
  · intro e he
    simp [newDevice, he]
  · intro e ht hl
    simp [newDevice, ht, hl]
  · intro e r ht hl hd hp hr
    simp only [newDevice, ht, hl] at hr
    cases hsc : afterScanServices env with
    | none => rw [hsc] at hr; simp at hr
    | some svcs2 =>
        rw [hsc] at hr
        simp only [hd, hp, if_true, Option.some.injEq] at hr
        subst hr
        exact ⟨rfl, rfl, rfl⟩

/-- Witness for the amended C1, at a construction whose listener acquisition
fails with error 3 after the transport succeeded: no device, error 3
verbatim, and exactly one transport close. -/
theorem newDevice_fatal_unwind_witness :
    newDevice
      { transportErr := none, infoDnssdName := "X".data,
        state0 := { dnssdName := "X".data, dnssdOverride := "X".data },
        httpPort := 60000, listenErr := some 3, ippinfo := none,
        ippServices := [], esclErr := none, esclServices := [],
        dnssdEnable := true, publishErr := none }
    = some
      { deviceReturned := false, retErr := some 3, unwind := [NdAct.closeTransport],
        stateAfter := { dnssdName := "X".data, dnssdOverride := "X".data },
        saveCalled := false, services := [] } :=
  (newDevice_fatal_unwind
    { transportErr := none, infoDnssdName := "X".data,
      state0 := { dnssdName := "X".data, dnssdOverride := "X".data },
      httpPort := 60000, listenErr := some 3, ippinfo := none,
      ippServices := [], esclErr := none, esclServices := [],
      dnssdEnable := true, publishErr := none }).2.1 3 rfl rfl

/-- **C2 (counterexample).** The claim says every step of `Shutdown` and
`Close` clears the released resource's reference immediately; `Shutdown`
leaves the transport reference live after its graceful shutdown, so a second
`Shutdown` performs the transport shutdown again. -/
theorem shutdown_does_not_clear_transport :
    (deviceShutdown ⟨true, true, true⟩).1.usbTransport = true ∧
    (deviceShutdown (deviceShutdown ⟨true, true, true⟩).1).2
      = [LifeAct.shutdownTransport] := by
  decide

/-- **C2 (amended).** Each step of `Shutdown` and `Close` acts only on a
live reference; `Close` clears every reference it releases and `Shutdown`
clears the publisher and proxy references but leaves the transport reference
unchanged after its graceful shutdown.  Hence a second `Close` performs
nothing, and the two named call sequences — `Close` twice, and `Shutdown`
followed by `Close` — never perform the same operation on the same resource
twice (and, the model being total, never panic). -/
theorem close_and_shutdown_idempotence (d : DeviceRefs) :
    (deviceClose (deviceClose d).1).2 = [] ∧
    (deviceShutdown d).1.dnssdPublisher = false ∧
    (deviceShutdown d).1.httpProxy = false ∧
    (deviceShutdown d).1.usbTransport = d.usbTransport ∧
    ((deviceShutdown d).2 ++ (deviceClose (deviceShutdown d).1).2).Nodup ∧
    ((deviceClose d).2 ++ (deviceClose (deviceClose d).1).2).Nodup := by
  obtain ⟨p, pr, t⟩ := d
  cases p <;> cases pr <;> cases t <;> decide

/-- **C7.** Whenever a print descriptor was created (`ippinfo` exists) and
construction got past transport and listener acquisition, the returned
service list is amended in place at the descriptor index recorded at
print-descriptor creation time: every other pre-web descriptor is unchanged,
and the recorded one carries its original TXT record with the scan-presence
flag appended — `"T"` when the eSCL query succeeded and explicitly `"F"`
when it failed, never omitted. -/
theorem newDevice_scan_flag_at_recorded_index
    (env : NewDeviceEnv) (i : IppPrinterInfo) (r : NewDeviceResult)
    (ht : env.transportErr = none) (hl : env.listenErr = none)
    (hi : env.ippinfo = some i) (hr : newDevice env = some r) :
    (∀ j, j ≠ i.ippSvcIndex → j < (env.ippServices ++ env.esclServices).length →
      r.services.get? j = (env.ippServices ++ env.esclServices).get? j) ∧
    (∀ s, (env.ippServices ++ env.esclServices).get? i.ippSvcIndex = some s →
      r.services.get? i.ippSvcIndex
        = some { s with txt := txtAdd s.txt "Scan".data (if env.esclErr = none then "T".data else "F".data) }) := by
  cases hsc : afterScanServices env with
  | none =>
      rw [newDevice] at hr
      rw [ht, hl, hsc] at hr
      exact Option.noConfusion hr
  | some svcs2 =>
      obtain ⟨hserv, -, -⟩ := newDevice_ok_fields env r ht hl svcs2 hsc hr
      have hdef := hsc
      simp only [afterScanServices, hi] at hdef
      by_cases hidx : i.ippSvcIndex < (env.ippServices ++ env.esclServices).length
      · rw [if_pos hidx] at hdef
        have hsv : svcs2 = amendScan (env.ippServices ++ env.esclServices)
            i.ippSvcIndex (if env.esclErr = none then "T".data else "F".data) :=
          (Option.some.injEq _ _ ▸ hdef).symm
        have hlen : svcs2.length = (env.ippServices ++ env.esclServices).length := by
          rw [hsv, amendScan_length]
        constructor
        · intro j hj hjlt
          rw [hserv, List.get?_append (by rw [hlen]; exact hjlt), hsv,
            amendScan_get?_ne _ _ _ _ hj]
        · intro s hs
          rw [hserv, List.get?_append (by rw [hlen]; exact hidx), hsv,
            amendScan_get?_eq, hs]
          rfl
      · rw [if_neg hidx] at hdef
        exact absurd hdef (by simp)

/-- Witness for C7: a concrete construction whose print query succeeded
(descriptor index 0) and whose scan query failed with error 9; the amended
descriptor carries the explicit `Scan=F` flag. -/
theorem newDevice_scan_flag_witness :
    newDevice
      { transportErr := none, infoDnssdName := "X".data,
        state0 := { dnssdName := "P".data, dnssdOverride := "P".data },
        httpPort := 60000, listenErr := none,
        ippinfo := some { dnssdName := "P".data, ippSvcIndex := 0 },
        ippServices := [{ typ := "_ipp._tcp".data, port := 60000, txt := [] }],
        esclErr := some 9, esclServices := [],
        dnssdEnable := false, publishErr := none }
    = some
      { deviceReturned := true, retErr := none, unwind := [],
        stateAfter := { dnssdName := "P".data, dnssdOverride := "P".data },
        saveCalled := false,
        services := [{ typ := "_ipp._tcp".data, port := 60000,
                       txt := [("Scan".data, "F".data)] }, webSvc 60000] } ∧
    (∀ s, (([{ typ := "_ipp._tcp".data, port := 60000, txt := [] }] ++ [])
            : List DNSSdSvcInfo).get? 0 = some s →
      ([{ typ := "_ipp._tcp".data, port := 60000,
          txt := [("Scan".data, "F".data)] }, webSvc 60000]
        : List DNSSdSvcInfo).get? 0
        = some { s with txt := txtAdd s.txt "Scan".data (if (some 9 : Option GoErr) = none then "T".data else "F".data) }) :=
  ⟨by decide,
    (newDevice_scan_flag_at_recorded_index
      { transportErr := none, infoDnssdName := "X".data,
        state0 := { dnssdName := "P".data, dnssdOverride := "P".data },
        httpPort := 60000, listenErr := none,
        ippinfo := some { dnssdName := "P".data, ippSvcIndex := 0 },
        ippServices := [{ typ := "_ipp._tcp".data, port := 60000, txt := [] }],
        esclErr := some 9, esclServices := [],
        dnssdEnable := false, publishErr := none }
      { dnssdName := "P".data, ippSvcIndex := 0 }
      { deviceReturned := true, retErr := none, unwind := [],
        stateAfter := { dnssdName := "P".data, dnssdOverride := "P".data },
        saveCalled := false,
        services := [{ typ := "_ipp._tcp".data, port := 60000,
                       txt := [("Scan".data, "F".data)] }, webSvc 60000] }
      rfl rfl rfl (by decide)).2⟩

/-- **C8.** Once construction reaches the naming step (transport and
listener succeeded), the persisted name fields are written back — name and
override both set to the resolved name, with a save — exactly when the
resolved advertised name differs from the currently stored name; when they
are equal the persisted state is returned unchanged and no save occurs. -/
theorem newDevice_saves_iff_name_differs
    (env : NewDeviceEnv) (r : NewDeviceResult)
    (ht : env.transportErr = none) (hl : env.listenErr = none)
    (hr : newDevice env = some r) :
    (r.saveCalled = true ↔ resolvedDnssdName env ≠ env.state0.dnssdName) ∧
    (resolvedDnssdName env = env.state0.dnssdName →
      r.stateAfter = env.state0 ∧ r.saveCalled = false) ∧
    (resolvedDnssdName env ≠ env.state0.dnssdName →
      r.stateAfter = { dnssdName := resolvedDnssdName env,
                       dnssdOverride := resolvedDnssdName env } ∧
      r.saveCalled = true) := by
  cases hsc : afterScanServices env with
  | none =>
      rw [newDevice] at hr
      rw [ht, hl, hsc] at hr
      exact Option.noConfusion hr
  | some svcs2 =>
      obtain ⟨-, hstate, hsave⟩ := newDevice_ok_fields env r ht hl svcs2 hsc hr
      refine ⟨?_, ?_, ?_⟩
      · rw [hsave]
        by_cases hn : resolvedDnssdName env ≠ env.state0.dnssdName <;> simp [hn]
      · intro hn
        rw [hstate, hsave]
        simp [hn]
      · intro hn
        rw [hstate, hsave]
        simp [hn]

/-- Witness for C8: a construction whose resolved name `"New"` differs from
the stored `"Old"`; the run saves, and the save flag matches the name
comparison. -/
theorem newDevice_saves_iff_name_differs_witness :
    newDevice
      { transportErr := none, infoDnssdName := "New".data,
        state0 := { dnssdName := "Old".data, dnssdOverride := "Old".data },
        httpPort := 60000, listenErr := none, ippinfo := none,
        ippServices := [], esclErr := none, esclServices := [],
        dnssdEnable := false, publishErr := none }
    = some
      { deviceReturned := true, retErr := none, unwind := [],
        stateAfter := { dnssdName := "New".data, dnssdOverride := "New".data },
        saveCalled := true, services := [webSvc 60000] } ∧
    ((true = true) ↔ resolvedDnssdName
      { transportErr := none, infoDnssdName := "New".data,
        state0 := { dnssdName := "Old".data, dnssdOverride := "Old".data },
        httpPort := 60000, listenErr := none, ippinfo := none,
        ippServices := [], esclErr := none, esclServices := [],
        dnssdEnable := false, publishErr := none }
      ≠ ("Old".data : Str)) :=
  ⟨by decide,
    (newDevice_saves_iff_name_differs
      { transportErr := none, infoDnssdName := "New".data,
        state0 := { dnssdName := "Old".data, dnssdOverride := "Old".data },
        httpPort := 60000, listenErr := none, ippinfo := none,
        ippServices := [], esclErr := none, esclServices := [],
        dnssdEnable := false, publishErr := none }
      { deviceReturned := true, retErr := none, unwind := [],
        stateAfter := { dnssdName := "New".data, dnssdOverride := "New".data },
        saveCalled := true, services := [webSvc 60000] }
      rfl rfl (by decide)).1⟩

end IppUsbClaims
